import Mathlib

/-!
Verification of the NotaryOS Python SDK (auto-instrumentation pipeline and
offline verifier) against its natural-language specification.

The Python source is shallowly embedded: dictionaries become association
lists, JSON values become an inductive type with an explicit encoder
mirroring `json.dumps` (default separators, insertion order), Python
exceptions become `Except`, the `random.random()` draw becomes an explicit
argument, and Python truthiness of optional strings / bytes is made
explicit.  Each definition is transcribed from the function of the same
name in `notary_sdk.py` / `notary_offline.py`.
-/

/-- JSON-safe flat value: after `_safe_repr` every argument/result value is
`None`, a bool, a number, or a string, so payload dictionaries reaching
`_truncate_payload` and `_redact_secrets` contain only these (numbers are
carried by their serialized literal, which is what determines byte size). -/
inductive JFlat where
  | jnull : JFlat
  | jbool : Bool → JFlat
  | jnum : String → JFlat
  | jstr : String → JFlat
deriving DecidableEq

/-- A payload value: either flat, or a one-level object (the `arguments`
dictionary of safe-repr'd values). -/
inductive JVal where
  | flat : JFlat → JVal
  | obj : List (String × JFlat) → JVal
deriving DecidableEq

/-- JSON string escaping for one character (quote and backslash; payload
content is ASCII in this model). -/
def escChar (c : Char) : String :=
  if c = '"' then "\\\"" else if c = '\\' then "\\\\" else String.singleton c

/-- JSON string escaping, as performed by `json.dumps` on ASCII content. -/
def escapeStr (s : String) : String :=
  String.join (s.data.map escChar)

/-- Encode a string as a JSON string literal. -/
def encStr (s : String) : String :=
  "\"" ++ escapeStr s ++ "\""

/-- Encode a flat JSON value as `json.dumps` would. -/
def encFlat : JFlat → String
  | .jnull => "null"
  | .jbool true => "true"
  | .jbool false => "false"
  | .jnum lit => lit
  | .jstr s => encStr s

/-- Encode one `key: value` member of a JSON object. -/
def encMember (kv : String × JFlat) : String :=
  encStr kv.1 ++ ": " ++ encFlat kv.2

/-- Encode a payload value (flat value or one-level object) as `json.dumps`
would with its default separators `", "` and `": "`. -/
def encVal : JVal → String
  | .flat v => encFlat v
  | .obj kvs => "\x7b" ++ String.intercalate ", " (kvs.map encMember) ++ "\x7d"

/-- Encode one `key: value` member of the top-level payload dictionary. -/
def encEntry (kv : String × JVal) : String :=
  encStr kv.1 ++ ": " ++ encVal kv.2

/-- Mirror of `json.dumps(payload, default=str)` on a payload dictionary
(Python 3.7+ dicts preserve insertion order). -/
def dumps (p : List (String × JVal)) : String :=
  "\x7b" ++ String.intercalate ", " (p.map encEntry) ++ "\x7d"

/-- Mirror of `len(json.dumps(payload, default=str).encode("utf-8"))`. -/
def jsonByteSize (p : List (String × JVal)) : Nat :=
  (dumps p).utf8ByteSize

/-- Python `name in dict` on an association-list dictionary. -/
def hasKey (p : List (String × JVal)) (k : String) : Bool :=
  p.any (fun kv => kv.1 == k)

/-- Python `dict[k] = v` on an association-list dictionary with unique keys. -/
def setKey (p : List (String × JVal)) (k : String) (v : JVal) : List (String × JVal) :=
  p.map (fun kv => if kv.1 == k then (kv.1, v) else kv)

/-- Python `dict.get(k, default)` on an association-list dictionary. -/
def getKeyD (p : List (String × JVal)) (k : String) (d : JVal) : JVal :=
  match p.find? (fun kv => kv.1 == k) with
  | some kv => kv.2
  | none => d

/-- Python substring membership `needle in hay` on character lists. -/
def listContainsSub (needle : List Char) : List Char → Bool
  | [] => needle.isEmpty
  | c :: t => needle.isPrefixOf (c :: t) || listContainsSub needle t

/-- Python substring membership `needle in hay` on strings. -/
def strContainsSub (hay needle : String) : Bool :=
  listContainsSub needle.data hay.data

/-- The fixed redaction marker written by `_redact_secrets`. -/
def redactionMarker : JVal := .flat (.jstr "[REDACTED]")

/-- Default `secret_patterns` of `AutoReceiptConfig` (a frozenset in the
source; modelled as a list, `any` being order-insensitive). -/
def defaultSecretPatterns : List String :=
  ["key", "secret", "token", "password", "credential", "auth"]

/-- Key-name test of `_redact_secrets`: some pattern occurs in `k.lower()`. -/
def secretKey (patterns : List String) (k : String) : Bool :=
  patterns.any (fun p => strContainsSub k.toLower p)

/-- Transcription of `_redact_secrets` (notary_sdk.py): build a new dict,
replacing the value of every key containing a secret-like substring by the
marker, copying every other entry unchanged. -/
def _redact_secrets (args : List (String × JVal)) (patterns : List String) :
    List (String × JVal) :=
  args.foldl
    (fun redacted kv =>
      if secretKey patterns kv.1 then redacted ++ [(kv.1, redactionMarker)]
      else redacted ++ [kv])
    []

/-- Pointwise description of one redaction step. -/
def redactEntry (patterns : List String) (kv : String × JVal) : String × JVal :=
  if secretKey patterns kv.1 then (kv.1, redactionMarker) else kv

theorem redact_foldl_general (args : List (String × JVal)) (patterns : List String)
    (acc : List (String × JVal)) :
    args.foldl
      (fun redacted kv =>
        if secretKey patterns kv.1 then redacted ++ [(kv.1, redactionMarker)]
        else redacted ++ [kv])
      acc = acc ++ args.map (redactEntry patterns) := by
  induction args generalizing acc with
  | nil => simp
  | cons kv t ih =>
    simp only [List.foldl_cons, List.map_cons, ih, redactEntry]
    by_cases h : secretKey patterns kv.1 = true
    · simp [h]
    · simp [h]

/-- C5: the redactor returns a new mapping in which every entry whose key's
lowercase form contains one of the configured secret-indicating substrings
(default set: key, secret, token, password, credential, auth) has its value
replaced by the fixed marker, and every other entry passes through
unchanged; only the top-level key name decides, so nested values are never
scanned. -/
theorem redact_secrets_spec (args : List (String × JVal)) (patterns : List String) :
    _redact_secrets args patterns =
      args.map (fun kv =>
        if patterns.any (fun p => strContainsSub kv.1.toLower p) then
          (kv.1, redactionMarker)
        else kv)
    ∧ defaultSecretPatterns =
        ["key", "secret", "token", "password", "credential", "auth"] := by
  constructor
  · have hfun : redactEntry patterns = fun kv : String × JVal =>
        if patterns.any (fun p => strContainsSub kv.1.toLower p) then
          (kv.1, redactionMarker)
        else kv := by
      funext kv
      simp [redactEntry, secretKey]
    have h := redact_foldl_general args patterns []
    simp only [List.nil_append] at h
    unfold _redact_secrets
    rw [h, hfun]
  · rfl

/-- The `"<truncated>"` marker value written by `_truncate_payload`. -/
def truncMark : JVal := .flat (.jstr "<truncated>")

/-- Last-resort minimal record of `_truncate_payload`: only agent,
auto_receipt, function, status and a truncated flag, in the source's
insertion order, with the source's `dict.get` defaults. -/
def minimalPayload (p : List (String × JVal)) : List (String × JVal) :=
  [("agent", getKeyD p "agent" (.flat (.jstr ""))),
   ("auto_receipt", .flat (.jbool true)),
   ("function", getKeyD p "function" (.flat (.jstr ""))),
   ("status", getKeyD p "status" (.flat (.jstr "unknown"))),
   ("truncated", .flat (.jbool true))]

/-- Continuation of `_truncate_payload` after the result-summary step:
blank `arguments` when present and re-check, otherwise fall through to the
minimal record. -/
def truncateStep2 (p1 : List (String × JVal)) (maxBytes : Nat) : List (String × JVal) :=
  if hasKey p1 "arguments" then
    let p2 := setKey p1 "arguments" truncMark
    if jsonByteSize p2 ≤ maxBytes then p2 else minimalPayload p2
  else minimalPayload p1

/-- Transcription of `_truncate_payload` (notary_sdk.py): return the payload
unchanged when it fits; otherwise blank `result_summary`, re-check; then
blank `arguments`, re-check; finally return the minimal record (which the
source emits without a size check). -/
def _truncate_payload (p : List (String × JVal)) (maxBytes : Nat) : List (String × JVal) :=
  if jsonByteSize p ≤ maxBytes then p
  else if hasKey p "result_summary" then
    let p1 := setKey p "result_summary" truncMark
    if jsonByteSize p1 ≤ maxBytes then p1 else truncateStep2 p1 maxBytes
  else truncateStep2 p maxBytes

/-- First degradation: blank the result summary when the key is present. -/
def blankResult (p : List (String × JVal)) : List (String × JVal) :=
  if hasKey p "result_summary" then setKey p "result_summary" truncMark else p

/-- Second degradation: blank the arguments when the key is present. -/
def blankArguments (p : List (String × JVal)) : List (String × JVal) :=
  if hasKey p "arguments" then setKey p "arguments" truncMark else p

/-- The ordered degradation candidates: original, result blanked, then
arguments blanked as well. -/
def degradationChain (p : List (String × JVal)) : List (List (String × JVal)) :=
  [p, blankResult p, blankArguments (blankResult p)]

/-- C4 counterexample: the claim "the payload emitted after truncation
serializes to at most the configured maximum" fails: with limit 0 and the
one-entry payload `{"agent": "A"}` the emitted minimal record is not within
the limit, because the source emits the last-resort record without a size
check. -/
theorem truncate_payload_counterexample :
    ¬ jsonByteSize (_truncate_payload [("agent", JVal.flat (JFlat.jstr "A"))] 0) ≤ 0 := by
  decide

/-- C4 (amended): `_truncate_payload` returns the first candidate of the
fixed degradation order (original, result summary blanked, arguments
blanked) that fits the byte budget, and otherwise the minimal record —
emitted without a size check; a payload that already fits is returned
unchanged, and every emitted payload either fits the budget or is the
minimal record. -/
theorem truncate_payload_theorem (p : List (String × JVal)) (m : Nat) :
    _truncate_payload p m =
      (((degradationChain p).find? fun q => decide (jsonByteSize q ≤ m)).getD
        (minimalPayload (blankArguments (blankResult p))))
    ∧ (jsonByteSize p ≤ m → _truncate_payload p m = p)
    ∧ (jsonByteSize (_truncate_payload p m) ≤ m ∨
        _truncate_payload p m = minimalPayload (blankArguments (blankResult p))) := by
  have hmain : _truncate_payload p m =
      (((degradationChain p).find? fun q => decide (jsonByteSize q ≤ m)).getD
        (minimalPayload (blankArguments (blankResult p)))) := by
    by_cases h0 : jsonByteSize p ≤ m
    · simp [_truncate_payload, degradationChain, List.find?, h0]
    · by_cases hR : hasKey p "result_summary" = true
      · by_cases h1 : jsonByteSize (setKey p "result_summary" truncMark) ≤ m
        · simp [_truncate_payload, degradationChain, blankResult, List.find?, h0, hR, h1]
        · by_cases hA : hasKey (setKey p "result_summary" truncMark) "arguments" = true
          · by_cases h2 : jsonByteSize
                (setKey (setKey p "result_summary" truncMark) "arguments" truncMark) ≤ m
            · simp [_truncate_payload, truncateStep2, degradationChain, blankResult,
                blankArguments, List.find?, h0, hR, h1, hA, h2]
            · simp [_truncate_payload, truncateStep2, degradationChain, blankResult,
                blankArguments, List.find?, h0, hR, h1, hA, h2]
          · simp [_truncate_payload, truncateStep2, degradationChain, blankResult,
              blankArguments, List.find?, h0, hR, h1, hA]
      · by_cases hA : hasKey p "arguments" = true
        · by_cases h2 : jsonByteSize (setKey p "arguments" truncMark) ≤ m
          · simp [_truncate_payload, truncateStep2, degradationChain, blankResult,
              blankArguments, List.find?, h0, hR, hA, h2]
          · simp [_truncate_payload, truncateStep2, degradationChain, blankResult,
              blankArguments, List.find?, h0, hR, hA, h2]
        · simp [_truncate_payload, truncateStep2, degradationChain, blankResult,
            blankArguments, List.find?, h0, hR, hA]
  refine ⟨hmain, ?_, ?_⟩
  · intro h0
    simp [_truncate_payload, h0]
  · rw [hmain]
    cases hf : (degradationChain p).find? fun q => decide (jsonByteSize q ≤ m) with
    | none => right; simp
    | some q =>
      left
      have hq := List.find?_some hf
      simp only [Option.getD_some]
      exact of_decide_eq_true hq

/-- Witness for the amended C4 theorem at a concrete payload and budget. -/
theorem truncate_payload_theorem_witness :
    jsonByteSize [("agent", JVal.flat (JFlat.jstr "A"))] ≤ 4096 ∧
    _truncate_payload [("agent", JVal.flat (JFlat.jstr "A"))] 4096 =
      [("agent", JVal.flat (JFlat.jstr "A"))] :=
  ⟨by decide, (truncate_payload_theorem [("agent", JVal.flat (JFlat.jstr "A"))] 4096).2.1
    (by decide)⟩

/-- Transcription of `AutoReceiptConfig` (notary_sdk.py) with its source
defaults; `sample_rate` is a rational stand-in for the Python float, and the
frozenset of secret patterns is carried as a list. -/
structure AutoReceiptConfig where
  enabled : Bool := true
  mode : String := "all"
  sample_rate : Rat := 1
  max_payload_bytes : Nat := 4096
  fire_and_forget : Bool := true
  dry_run : Bool := false
  redact_secrets : Bool := true
  secret_patterns : List String := defaultSecretPatterns

/-- Transcription of `AutoReceiptConfig.should_receipt`; the `random.random()`
draw is passed in explicitly as `randomDraw`.  Any mode other than
`errors_only` and `sample` falls through to `True`, as in the source. -/
def AutoReceiptConfig.should_receipt (cfg : AutoReceiptConfig) (randomDraw : Rat)
    (status : String) : Bool :=
  if !cfg.enabled then false
  else if cfg.mode == "errors_only" then status == "error"
  else if cfg.mode == "sample" then decide (randomDraw < cfg.sample_rate)
  else true

/-- C8: `should_receipt` is false whenever the configuration is disabled;
with mode `errors_only` it is true exactly when the status is `error`; with
the sampling mode (spelled `"sample"` in the source) it is true exactly when
the uniform draw falls below the configured sample rate — which for a
uniform draw on [0,1) happens with probability equal to the rate; with mode
`all` it is always true. -/
theorem should_receipt_spec (cfg : AutoReceiptConfig) (randomDraw : Rat) (status : String) :
    (cfg.enabled = false → cfg.should_receipt randomDraw status = false)
    ∧ (cfg.enabled = true → cfg.mode = "errors_only" →
        (cfg.should_receipt randomDraw status = true ↔ status = "error"))
    ∧ (cfg.enabled = true → cfg.mode = "sample" →
        (cfg.should_receipt randomDraw status = true ↔ randomDraw < cfg.sample_rate))
    ∧ (cfg.enabled = true → cfg.mode = "all" →
        cfg.should_receipt randomDraw status = true) := by
  refine ⟨?_, ?_, ?_, ?_⟩
  · intro h
    simp [AutoReceiptConfig.should_receipt, h]
  · intro h hm
    simp [AutoReceiptConfig.should_receipt, h, hm]
  · intro h hm
    simp [AutoReceiptConfig.should_receipt, h, hm]
  · intro h hm
    simp [AutoReceiptConfig.should_receipt, h, hm]

/-- Witness for C8 at concrete configurations. -/
theorem should_receipt_spec_witness :
    AutoReceiptConfig.should_receipt { enabled := false } 0 "success" = false ∧
    AutoReceiptConfig.should_receipt { mode := "errors_only" } 0 "error" = true :=
  ⟨(should_receipt_spec { enabled := false } 0 "success").1 rfl,
   ((should_receipt_spec { mode := "errors_only" } 0 "error").2.1 rfl rfl).mpr rfl⟩

/-- Python `try: body except Exception: pass` around the receipt-emission
block: every exception of the block is swallowed. -/
def tryExceptPass {ε : Type} (body : Except ε Unit) : Except ε Unit :=
  match body with
  | .ok _ => .ok ()
  | .error _ => .ok ()

/-- Python `try: body finally: fin` outcome semantics: if the finalizer
raises, its exception replaces the body's outcome; otherwise the body's
return value or exception stands. -/
def tryFinallyRun {ε α : Type} (body : Except ε α) (fin : Except ε Unit) : Except ε α :=
  match fin with
  | .ok _ => body
  | .error e => .error e

/-- Status recorded by the wrapper: `success` on return, `error` when the
original method raises (the exception is re-raised unchanged). -/
def statusOf {ε α : Type} (outcome : Except ε α) : String :=
  match outcome with
  | .ok _ => "success"
  | .error _ => "error"

/-- Transcription of the caller-visible control flow of `sync_wrapper`
(notary_sdk.py `_make_wrapper`): run the original method inside
`try/except/finally`; the whole receipt-emission path (argument shaping,
payload building, truncation, enqueue or synchronous issue) is abstracted
as `emit`, run inside the finally block under a `try/except Exception:
pass`. -/
def sync_wrapper {ε α β : Type} (method : α → Except ε β)
    (emit : String → Except ε Unit) (x : α) : Except ε β :=
  tryFinallyRun (method x) (tryExceptPass (emit (statusOf (method x))))

/-- C3: for every wrapped method, argument and emission behavior, the
wrapper's caller-visible outcome is exactly the original method's outcome —
the same return value, or the same re-raised exception — because every
failure of the emission path is swallowed by the inner `except` before the
`finally` block can replace the outcome. -/
theorem wrapper_transparent {ε α β : Type} (method : α → Except ε β)
    (emit : String → Except ε Unit) (x : α) :
    sync_wrapper method emit x = method x := by
  cases h : emit (statusOf (method x)) with
  | ok u => simp [sync_wrapper, tryExceptPass, tryFinallyRun, h]
  | error e => simp [sync_wrapper, tryExceptPass, tryFinallyRun, h]

/-- Transcription of `_ChainState` (notary_sdk.py): per-agent last receipt
hash and sequence counter; the lock makes `get_and_advance` atomic, which
the sequential model reflects by making it a single step. -/
structure _ChainState where
  last_hash : Option String
  sequence : Nat
deriving DecidableEq

/-- Initial chain state of a freshly wrapped agent. -/
def _ChainState.init : _ChainState := ⟨none, 0⟩

/-- Transcription of `_ChainState.get_and_advance`: return the pre-advance
`(last_hash, sequence)` and the advanced state. -/
def _ChainState.get_and_advance (s : _ChainState) (receipt_hash : String) :
    (Option String × Nat) × _ChainState :=
  ((s.last_hash, s.sequence), ⟨some receipt_hash, s.sequence + 1⟩)

/-- Transcription of `_ChainState.peek`. -/
def _ChainState.peek (s : _ChainState) : Option String × Nat :=
  (s.last_hash, s.sequence)

/-- One synchronous-mode call of the wrapper's issue branch: read the
current previous-hash via `peek`, issue (the returned `receipt_hash` is the
argument, `none` for a missing hash), and advance only when the returned
hash is truthy.  Returns the `(prev_hash, sequence)` pair the call used. -/
def syncIssueStep (s : _ChainState) (issuedHash : Option String) :
    (Option String × Nat) × _ChainState :=
  let prevSeq := s.peek
  match issuedHash with
  | some h => if h.isEmpty then (prevSeq, s) else (prevSeq, (s.get_and_advance h).2)
  | none => (prevSeq, s)

/-- Run a sequence of synchronous calls, collecting for each the
previous-hash and sequence number it was issued under. -/
def syncRun (s : _ChainState) : List (Option String) → List (Option String × Nat) × _ChainState
  | [] => ([], s)
  | h :: rest =>
    let step := syncIssueStep s h
    let tail := syncRun step.2 rest
    (step.1 :: tail.1, tail.2)

/-- Expected trace of N successful synchronous calls starting from previous
hash `prev` and sequence `n`: call i runs under sequence `n + i`, the first
call under `prev`, and each later call under the hash returned by its
predecessor. -/
def specTraceFrom (prev : Option String) (n : Nat) (hs : List String) :
    List (Option String × Nat) :=
  (List.range hs.length).map fun i =>
    ((if i = 0 then prev else some (hs.getD (i - 1) "")), n + i)

theorem specTraceFrom_cons (prev : Option String) (n : Nat) (h : String) (t : List String) :
    specTraceFrom prev n (h :: t) = (prev, n) :: specTraceFrom (some h) (n + 1) t := by
  simp only [specTraceFrom, List.length_cons, List.range_succ_eq_map, List.map_cons,
    List.map_map]
  congr 1
  apply List.map_congr_left
  intro i _
  simp only [Function.comp_apply]
  cases i with
  | zero => simp
  | succ k =>
    simp only [Nat.succ_ne_zero, if_false, List.getD_cons_succ, Nat.add_sub_cancel,
      Prod.mk.injEq]
    exact ⟨rfl, by omega⟩

theorem syncRun_trace_general (hs : List String) (hall : ∀ h ∈ hs, h.isEmpty = false)
    (s : _ChainState) :
    (syncRun s (hs.map some)).1 = specTraceFrom s.last_hash s.sequence hs := by
  induction hs generalizing s with
  | nil => simp [syncRun, specTraceFrom]
  | cons h t ih =>
    have hh : h.isEmpty = false := hall h (List.mem_cons_self h t)
    have ht : ∀ x ∈ t, x.isEmpty = false := fun x hx => hall x (List.mem_cons_of_mem h hx)
    rw [specTraceFrom_cons]
    simp only [List.map_cons, syncRun, syncIssueStep, _ChainState.peek,
      _ChainState.get_and_advance, hh, Bool.false_eq_true, if_false]
    exact congrArg (List.cons (s.last_hash, s.sequence)) (ih ht ⟨some h, s.sequence + 1⟩)

/-- C2: for every sequence of N synchronous calls on one wrapped agent in
which every remote issue succeeds (returns a non-empty receipt hash), the
chain sequence numbers used are exactly 0..N-1 in call order, call 0 is
issued under previous-hash `none` (sent as GENESIS), and call i is issued
under the receipt hash returned by call i-1. -/
theorem chain_linkage_spec (hs : List String) (hall : ∀ h ∈ hs, h.isEmpty = false) :
    (syncRun _ChainState.init (hs.map some)).1 = specTraceFrom none 0 hs
    ∧ (syncRun _ChainState.init (hs.map some)).1.length = hs.length := by
  constructor
  · exact syncRun_trace_general hs hall _ChainState.init
  · rw [syncRun_trace_general hs hall _ChainState.init]
    simp [specTraceFrom]

/-- Witness for C2 on a concrete three-call run. -/
theorem chain_linkage_spec_witness :
    (∀ h ∈ ["h0", "h1", "h2"], h.isEmpty = false) ∧
    (syncRun _ChainState.init (["h0", "h1", "h2"].map some)).1 =
      specTraceFrom none 0 ["h0", "h1", "h2"] :=
  ⟨by decide, (chain_linkage_spec ["h0", "h1", "h2"] (by decide)).1⟩

/-- Receipt record as consumed by the offline verifier (notary_offline.py).
The seven required fields are strings, with `""` standing for a missing or
falsy value exactly as the source's `receipt.get(f)` falsiness check sees
them; the optional fields are `Option String` with `none` for an absent key
or a `None` value. -/
structure Receipt where
  receipt_id : String
  timestamp : String
  agent_id : String
  action_type : String
  payload_hash : String
  signature : String
  signature_type : String
  previous_receipt_hash : Option String
  kid : Option String
  key_id : Option String
deriving DecidableEq

/-- Python `receipt.get(k) or d`: the default is substituted when the field
is absent, `None`, or the empty string (all falsy). -/
def pyOrDefault (o : Option String) (d : String) : String :=
  match o with
  | some s => if s.isEmpty then d else s
  | none => d

/-- Transcription of `_build_canonical` (notary_offline.py): the fields
receipt_id, timestamp, agent_id, the constant role marker `"notary"`,
action_type, payload_hash and previous-hash-or-GENESIS, joined by `"|"`. -/
def _build_canonical (r : Receipt) : String :=
  String.intercalate "|"
    [r.receipt_id, r.timestamp, r.agent_id, "notary", r.action_type, r.payload_hash,
     pyOrDefault r.previous_receipt_hash "GENESIS"]

/-- C1: the canonical message reconstructed before the signature check is
exactly identifier, timestamp, agent identifier, the constant role marker
`notary`, action type, payload hash and previous-receipt hash (with
`GENESIS` substituted when the latter is absent or empty), in that order,
joined by the single delimiter `|`; the remaining receipt fields (signature,
signature algorithm tag, key identifiers) do not contribute. -/
theorem build_canonical_spec (r : Receipt) :
    _build_canonical r =
      r.receipt_id ++ "|" ++ r.timestamp ++ "|" ++ r.agent_id ++ "|" ++ "notary" ++ "|" ++
        r.action_type ++ "|" ++ r.payload_hash ++ "|" ++
        pyOrDefault r.previous_receipt_hash "GENESIS"
    ∧ ∀ (sig sigt : String) (k ki : Option String),
        _build_canonical
          { r with signature := sig, signature_type := sigt, kid := k, key_id := ki } =
          _build_canonical r :=
  ⟨rfl, fun _ _ _ _ => rfl⟩

/-- Required fields checked by `OfflineVerifier.verify`. -/
def requiredFields : List String :=
  ["receipt_id", "timestamp", "agent_id", "action_type", "payload_hash",
   "signature", "signature_type"]

/-- Field access by name for the structural check. -/
def Receipt.getField (r : Receipt) (f : String) : String :=
  if f == "receipt_id" then r.receipt_id
  else if f == "timestamp" then r.timestamp
  else if f == "agent_id" then r.agent_id
  else if f == "action_type" then r.action_type
  else if f == "payload_hash" then r.payload_hash
  else if f == "signature" then r.signature
  else if f == "signature_type" then r.signature_type
  else ""

/-- The source's `[f for f in required_fields if not receipt.get(f)]`. -/
def missingFields (r : Receipt) : List String :=
  requiredFields.filter (fun f => (r.getField f).isEmpty)

/-- Result record of offline verification (notary_offline.py). -/
structure OfflineVerificationResult where
  valid : Bool
  signature_ok : Bool
  structure_ok : Bool
  reason : String
  key_id : String
deriving DecidableEq

/-- Python truthiness of an optional string / bytes value: `none` and the
empty value are falsy. -/
def pyTruthyOpt (o : Option String) : Bool :=
  match o with
  | none => false
  | some s => !s.isEmpty

/-- Python `s.startswith(pre)`. -/
def pyStartsWith (s pre : String) : Bool :=
  pre.data.isPrefixOf s.data

/-- Python `s[:n]` (code-point slicing). -/
def pyTake (s : String) (n : Nat) : String :=
  ⟨s.data.take n⟩

/-- The fallback condition of the key-resolution loop:
`stored_kid.startswith(kid[:8]) or kid.startswith(stored_kid[:8])`. -/
def kidPrefixMatch (kid stored : String) : Bool :=
  pyStartsWith stored (pyTake kid 8) || pyStartsWith kid (pyTake stored 8)

/-- Python `self._keys.get(kid)` on the key cache (kid, raw key bytes). -/
def lookupKey (keys : List (String × String)) (kid : String) : Option String :=
  (keys.find? (fun kv => kv.1 == kid)).map (fun kv => kv.2)

/-- Key resolution of `OfflineVerifier.verify`: exact cache lookup, then the
first stored key whose identifier matches the 8-character-prefix fallback;
returns the resolved identifier and the (possibly still missing) raw key. -/
def resolveKey (keys : List (String × String)) (kid0 : String) : String × Option String :=
  let raw := lookupKey keys kid0
  if pyTruthyOpt raw then (kid0, raw)
  else
    match keys.find? (fun kv => kidPrefixMatch kid0 kv.1) with
    | some kv => (kv.1, some kv.2)
    | none => (kid0, raw)

/-- The source's `receipt.get("kid") or receipt.get("key_id", "")`. -/
def receiptKid (r : Receipt) : String :=
  pyOrDefault r.kid (r.key_id.getD "")

/-- Transcription of `OfflineVerifier.verify` (notary_offline.py): structural
check, key resolution, canonical reconstruction, then the signature check —
abstracted as the predicate `sigOk raw_key signature canonical`, any
exception inside it being the `false` outcome. -/
def OfflineVerifier.verify (keys : List (String × String))
    (sigOk : String → String → String → Bool) (r : Receipt) : OfflineVerificationResult :=
  let missing := missingFields r
  if !missing.isEmpty then
    { valid := false, signature_ok := false, structure_ok := false,
      reason := "Missing required fields: " ++ String.intercalate ", " missing,
      key_id := "" }
  else
    let resolved := resolveKey keys (receiptKid r)
    if pyTruthyOpt resolved.2 then
      if sigOk (resolved.2.getD "") r.signature (_build_canonical r) then
        { valid := true, signature_ok := true, structure_ok := true,
          reason := "Signature verified locally", key_id := resolved.1 }
      else
        { valid := false, signature_ok := false, structure_ok := true,
          reason := "Signature verification failed", key_id := resolved.1 }
    else
      { valid := false, signature_ok := false, structure_ok := true,
        reason := "Unknown key ID: " ++ resolved.1, key_id := resolved.1 }

/-- C6 counterexample: the claim that an identifier which is neither a
truncation nor an extension of any cached identifier is never resolved
fails — the fallback compares only the first 8 characters, so
`abcdefghYYYY` resolves to the cached key `abcdefghXXXX` although neither
identifier is a prefix of the other. -/
theorem key_resolution_counterexample :
    resolveKey [("abcdefghXXXX", "K")] "abcdefghYYYY" = ("abcdefghXXXX", some "K")
    ∧ pyStartsWith "abcdefghXXXX" "abcdefghYYYY" = false
    ∧ pyStartsWith "abcdefghYYYY" "abcdefghXXXX" = false := by
  decide

/-- C6 (amended): for a structurally complete receipt, verify resolves the
key identifier by exact cache lookup, falling back to the first cached key
matching on the first 8 characters in either direction (which tolerates
truncated identifiers but also admits merely 8-prefix-sharing ones); when
neither rule matches any cached key, verify returns valid = false,
signature_ok = false, structure_ok = true and an unknown-key reason. -/
theorem key_resolution_amended (keys : List (String × String))
    (sigOk : String → String → String → Bool) (r : Receipt)
    (hstruct : (missingFields r).isEmpty = true)
    (hexact : pyTruthyOpt (lookupKey keys (receiptKid r)) = false) :
    ((∀ kv ∈ keys, kidPrefixMatch (receiptKid r) kv.1 = false) →
      OfflineVerifier.verify keys sigOk r =
        { valid := false, signature_ok := false, structure_ok := true,
          reason := "Unknown key ID: " ++ receiptKid r, key_id := receiptKid r })
    ∧ (∀ kv₀, keys.find? (fun kv => kidPrefixMatch (receiptKid r) kv.1) = some kv₀ →
        (OfflineVerifier.verify keys sigOk r).key_id = kv₀.1) := by
  constructor
  · intro hnone
    have hfind : keys.find? (fun kv => kidPrefixMatch (receiptKid r) kv.1) = none := by
      rw [List.find?_eq_none]
      intro kv hkv
      simp [hnone kv hkv]
    simp [OfflineVerifier.verify, resolveKey, hstruct, hexact, hfind]
  · intro kv₀ hfind
    simp only [OfflineVerifier.verify, resolveKey, hstruct, hexact, hfind,
      Bool.not_eq_true', if_false, Bool.false_eq_true, if_true]
    by_cases htr : pyTruthyOpt (some kv₀.2) = true
    · by_cases hsig : sigOk kv₀.2 r.signature (_build_canonical r) = true
      · simp [htr, hsig]
      · simp [htr, hsig]
    · simp [htr]

/-- Concrete receipt used by the C6 witness: structurally complete, key
identifier `zzzzzzzzz`, unknown to the cache. -/
def sampleReceipt : Receipt :=
  { receipt_id := "r1", timestamp := "t1", agent_id := "a1", action_type := "act",
    payload_hash := "ph", signature := "sg", signature_type := "ed25519",
    previous_receipt_hash := none, kid := none, key_id := some "zzzzzzzzz" }

/-- Witness for the amended C6 theorem at a concrete cache and receipt. -/
theorem key_resolution_amended_witness :
    OfflineVerifier.verify [("storedkey123", "K")] (fun _ _ _ => false) sampleReceipt =
      { valid := false, signature_ok := false, structure_ok := true,
        reason := "Unknown key ID: zzzzzzzzz", key_id := "zzzzzzzzz" } := by
  have h := (key_resolution_amended [("storedkey123", "K")] (fun _ _ _ => false)
    sampleReceipt (by decide) (by decide)).1 (by decide)
  exact h.trans (by decide)

/-- A bound method of a target object: its callable behavior plus the
`_auto_receipted` marker flag that `_make_wrapper` sets on wrappers. -/
structure PyMethod (ε α β : Type) where
  run : α → Except ε β
  auto_receipted : Bool

/-- Target object of `NotaryClient.wrap`: its public attribute table of
callables plus the three notary bookkeeping attributes, with `false` /
`none` standing for an attribute that is not set (the source reads them
through `getattr(obj, _, False/None)` and removes them with `delattr`). -/
structure PyAgent (ε α β : Type) where
  methods : List (String × PyMethod ε α β)
  notary_wrapped : Bool
  notary_originals : Option (List (String × PyMethod ε α β))
  notary_chain : Option Unit

/-- Selection rule of `_discover_methods`: public name (no leading
underscore) and not already carrying the `_auto_receipted` marker; the
entries of `PyAgent.methods` model the callable non-property attributes the
source iterates over. -/
def methodQualifies {ε α β : Type} (name : String) (m : PyMethod ε α β) : Bool :=
  !(name.startsWith "_") && !m.auto_receipted

/-- Transcription of `_discover_methods` (notary_sdk.py). -/
def _discover_methods {ε α β : Type} (a : PyAgent ε α β) :
    List (String × PyMethod ε α β) :=
  a.methods.filter (fun kv => methodQualifies kv.1 kv.2)

/-- Transcription of `_make_wrapper`: the wrapper runs the original method
under the `sync_wrapper` control flow and carries the `_auto_receipted`
marker. -/
def _make_wrapper {ε α β : Type} (emit : String → Except ε Unit)
    (m : PyMethod ε α β) : PyMethod ε α β :=
  { run := sync_wrapper m.run emit, auto_receipted := true }

/-- Dictionary lookup in a saved originals table. -/
def lookupMethod {ε α β : Type} (l : List (String × PyMethod ε α β)) (k : String) :
    Option (PyMethod ε α β) :=
  (l.find? (fun kv => kv.1 == k)).map (fun kv => kv.2)

/-- Transcription of `NotaryClient.wrap` restricted to a non-client target:
no-op when already wrapped or when the configuration is disabled; otherwise
replace each discovered method by its wrapper (instance-level `setattr`) and
record the originals, the wrapped flag and the chain state. -/
def wrapAgent {ε α β : Type} (cfg : AutoReceiptConfig) (emit : String → Except ε Unit)
    (a : PyAgent ε α β) : PyAgent ε α β :=
  if a.notary_wrapped then a
  else if !cfg.enabled then a
  else
    { methods := a.methods.map (fun kv =>
        if methodQualifies kv.1 kv.2 then (kv.1, _make_wrapper emit kv.2) else kv),
      notary_wrapped := true,
      notary_originals := some (_discover_methods a),
      notary_chain := some () }

/-- Transcription of `NotaryClient.unwrap`: if no originals are recorded the
object is returned untouched; otherwise each recorded original is restored
by `setattr` and the three bookkeeping attributes are deleted. -/
def unwrapAgent {ε α β : Type} (a : PyAgent ε α β) : PyAgent ε α β :=
  match a.notary_originals with
  | none => a
  | some originals =>
    { methods := a.methods.map (fun kv =>
        match lookupMethod originals kv.1 with
        | some original => (kv.1, original)
        | none => kv),
      notary_wrapped := false,
      notary_originals := none,
      notary_chain := none }

theorem lookup_filter_of_nodup {ε α β : Type} (l : List (String × PyMethod ε α β))
    (hn : (l.map Prod.fst).Nodup) (n : String) (m : PyMethod ε α β)
    (hmem : (n, m) ∈ l) :
    lookupMethod (l.filter fun kv => methodQualifies kv.1 kv.2) n =
      if methodQualifies n m then some m else none := by
  induction l with
  | nil => cases hmem
  | cons kv t ih =>
    rw [List.map_cons, List.nodup_cons] at hn
    obtain ⟨hhead, htail⟩ := hn
    have hnone : ∀ k, k ∉ t.map Prod.fst →
        lookupMethod (t.filter fun kv => methodQualifies kv.1 kv.2) k = none := by
      intro k hk
      have : (t.filter fun kv => methodQualifies kv.1 kv.2).find?
          (fun kv => kv.1 == k) = none := by
        rw [List.find?_eq_none]
        intro x hx
        have hxt : x ∈ t := List.mem_of_mem_filter hx
        have : x.1 ∈ t.map Prod.fst := List.mem_map_of_mem Prod.fst hxt
        simp only [beq_iff_eq]
        intro hxk
        exact hk (hxk ▸ this)
      simp [lookupMethod, this]
    rcases List.mem_cons.mp hmem with heq | hmemt
    · subst heq
      by_cases hq : methodQualifies n m = true
      · simp [lookupMethod, List.filter_cons, hq]
      · simp only [List.filter_cons]
        simp only [Bool.not_eq_true] at hq
        rw [hq]
        simp only [Bool.false_eq_true, if_false, hq]
        exact hnone n hhead
    · have hne : kv.1 ≠ n := by
        intro hkvn
        exact hhead (hkvn ▸ List.mem_map_of_mem Prod.fst hmemt)
      by_cases hq : methodQualifies kv.1 kv.2 = true
      · simp only [List.filter_cons, hq, if_true]
        rw [show lookupMethod (kv :: t.filter fun kv => methodQualifies kv.1 kv.2) n =
            lookupMethod (t.filter fun kv => methodQualifies kv.1 kv.2) n from by
          simp [lookupMethod, List.find?_cons, hne]]
        exact ih htail hmemt
      · simp only [List.filter_cons]
        simp only [Bool.not_eq_true] at hq
        rw [hq]
        simp only [Bool.false_eq_true, if_false]
        exact ih htail hmemt

theorem restore_after_wrap {ε α β : Type} (emit : String → Except ε Unit)
    (l : List (String × PyMethod ε α β)) (hn : (l.map Prod.fst).Nodup) :
    (l.map (fun kv =>
        if methodQualifies kv.1 kv.2 then (kv.1, _make_wrapper emit kv.2) else kv)).map
      (fun kv =>
        match lookupMethod (l.filter fun kv => methodQualifies kv.1 kv.2) kv.1 with
        | some original => (kv.1, original)
        | none => kv) = l := by
  rw [List.map_map]
  have h : ∀ kv ∈ l,
      ((fun kv : String × PyMethod ε α β =>
          match lookupMethod (l.filter fun kv => methodQualifies kv.1 kv.2) kv.1 with
          | some original => (kv.1, original)
          | none => kv) ∘
        (fun kv =>
          if methodQualifies kv.1 kv.2 then (kv.1, _make_wrapper emit kv.2) else kv)) kv
        = kv := by
    intro kv hkv
    have hlf := lookup_filter_of_nodup l hn kv.1 kv.2 hkv
    by_cases hq : methodQualifies kv.1 kv.2 = true
    · simp only [Function.comp_apply, hq, if_true]
      rw [hq] at hlf
      simp only [if_true] at hlf
      simp [hlf]
    · simp only [Bool.not_eq_true] at hq
      simp only [Function.comp_apply, hq, Bool.false_eq_true, if_false]
      rw [hq] at hlf
      simp only [Bool.false_eq_true, if_false] at hlf
      simp [hlf]
  exact (List.map_congr_left h).trans (List.map_id l)

/-- C7: wrapping an already-wrapped object is a no-op; for an agent with
distinct method names that carries no notary bookkeeping, unwrap after wrap
restores the exact original object — the very same callables, hence the
same return values and raised errors, with all receipt emission removed;
unwrap on an object that was never wrapped leaves it unchanged; and a
second unwrap is also a no-op. -/
theorem wrap_unwrap_spec {ε α β : Type} (cfg : AutoReceiptConfig)
    (emit : String → Except ε Unit) (a : PyAgent ε α β) :
    wrapAgent cfg emit (wrapAgent cfg emit a) = wrapAgent cfg emit a
    ∧ ((a.methods.map Prod.fst).Nodup → a.notary_wrapped = false →
        a.notary_originals = none → a.notary_chain = none →
        unwrapAgent (wrapAgent cfg emit a) = a)
    ∧ (a.notary_originals = none → unwrapAgent a = a)
    ∧ unwrapAgent (unwrapAgent a) = unwrapAgent a := by
  refine ⟨?_, ?_, ?_, ?_⟩
  · by_cases hw : a.notary_wrapped = true
    · simp [wrapAgent, hw]
    · by_cases hc : cfg.enabled = true
      · simp [wrapAgent, hw, hc]
      · simp [wrapAgent, hw, hc]
  · intro hn hw ho hch
    have ha : a = ⟨a.methods, false, none, none⟩ := by
      rw [← hw, ← ho, ← hch]
    by_cases hc : cfg.enabled = true
    · rw [ha]
      simp only [wrapAgent, hc, Bool.not_true, Bool.false_eq_true, if_false, unwrapAgent,
        _discover_methods]
      rw [restore_after_wrap emit a.methods hn]
    · rw [ha]
      simp [wrapAgent, hc, unwrapAgent]
  · intro ho
    simp [unwrapAgent, ho]
  · cases ho : a.notary_originals with
    | none => simp [unwrapAgent, ho]
    | some originals => simp [unwrapAgent, ho]

/-- Concrete one-method agent used by the C7 witness. -/
def sampleAgent : PyAgent Unit Unit Nat :=
  { methods := [("act", { run := fun _ => .ok 1, auto_receipted := false })],
    notary_wrapped := false, notary_originals := none, notary_chain := none }

/-- Witness for C7 on the concrete agent. -/
theorem wrap_unwrap_spec_witness :
    unwrapAgent (wrapAgent {} (fun _ => Except.ok ()) sampleAgent) = sampleAgent ∧
    unwrapAgent sampleAgent = sampleAgent :=
  ⟨(wrap_unwrap_spec {} (fun _ => Except.ok ()) sampleAgent).2.1
      (by simp [sampleAgent]) rfl rfl rfl,
   (wrap_unwrap_spec {} (fun _ => Except.ok ()) sampleAgent).2.2.1 rfl⟩

/-- Exception kind raised by the wrap entry guard. -/
inductive PyErrKind where
  | valueError : PyErrKind
deriving DecidableEq

/-- Client-side state that `NotaryClient.wrap` can touch before wrapping:
whether the shared receipt queue has been lazily created. -/
structure ClientState where
  receipt_queue_init : Bool
deriving DecidableEq

/-- A wrap target: an ordinary agent object, or a `NotaryClient` instance. -/
inductive WrapTarget (ε α β : Type) where
  | agent : PyAgent ε α β → WrapTarget ε α β
  | client : WrapTarget ε α β

/-- Transcription of the entry of `NotaryClient.wrap`: the `isinstance`
guard is the first statement, before the wrapped-flag check, the enabled
check, the lazy queue creation and any method discovery or replacement. -/
def NotaryClient.wrap {ε α β : Type} (cs : ClientState) (cfg : AutoReceiptConfig)
    (emit : String → Except ε Unit) :
    WrapTarget ε α β → ClientState × Except PyErrKind (WrapTarget ε α β)
  | .client => (cs, .error .valueError)
  | .agent a =>
    if a.notary_wrapped then (cs, .ok (.agent a))
    else if !cfg.enabled then (cs, .ok (.agent a))
    else ({ receipt_queue_init := true }, .ok (.agent (wrapAgent cfg emit a)))

/-- C10: wrapping a `NotaryClient` instance raises `ValueError` before any
method discovery, chain-state creation, queue creation or method
replacement, leaving the client state (and the target) unchanged. -/
theorem wrap_client_guard {ε α β : Type} (cs : ClientState) (cfg : AutoReceiptConfig)
    (emit : String → Except ε Unit) :
    NotaryClient.wrap cs cfg emit (WrapTarget.client : WrapTarget ε α β) =
      (cs, Except.error PyErrKind.valueError) :=
  rfl

/-- Transcription of `_ReceiptQueue` (notary_sdk.py): the bounded FIFO job
buffer with the issued / failed / dropped counters; jobs are abstract
(`γ`). -/
structure _ReceiptQueue (γ : Type) where
  maxsize : Nat
  jobs : List γ
  issued : Nat
  failed : Nat
  dropped : Nat

/-- A fresh queue, as built by `_ReceiptQueue.__init__` (default maxsize
1000). -/
def _ReceiptQueue.mkEmpty (γ : Type) (maxsize : Nat) : _ReceiptQueue γ :=
  ⟨maxsize, [], 0, 0, 0⟩

/-- Python `queue.Queue.put_nowait`: raises `queue.Full` (the `error`
outcome) when the queue is bounded and at capacity, otherwise appends the
job at the tail. -/
def put_nowait {γ : Type} (q : _ReceiptQueue γ) (job : γ) :
    Except Unit (_ReceiptQueue γ) :=
  if q.maxsize ≠ 0 ∧ q.jobs.length ≥ q.maxsize then Except.error ()
  else Except.ok { q with jobs := q.jobs ++ [job] }

/-- Transcription of `_ReceiptQueue.enqueue` without the thread start: the
`queue.Full` exception is caught, the dropped counter incremented, and a
non-fatal warning emitted (a side channel outside the model); the caller
never sees an exception, which the total return type `_ReceiptQueue γ`
records. -/
def enqueue {γ : Type} (q : _ReceiptQueue γ) (job : γ) : _ReceiptQueue γ :=
  match put_nowait q job with
  | .ok q2 => q2
  | .error _ => { q with dropped := q.dropped + 1 }


theorem enqueue_fold_general {γ : Type} (js : List γ) (q : _ReceiptQueue γ)
    (hms : q.maxsize ≠ 0) (hlen : q.jobs.length ≤ q.maxsize) :
    (js.foldl enqueue q).jobs = q.jobs ++ js.take (q.maxsize - q.jobs.length)
    ∧ (js.foldl enqueue q).dropped =
        q.dropped + (js.length - (q.maxsize - q.jobs.length)) := by
  induction js generalizing q with
  | nil => simp
  | cons j t ih =>
    by_cases hfull : q.jobs.length ≥ q.maxsize
    · have hr : q.maxsize - q.jobs.length = 0 := Nat.sub_eq_zero_of_le hfull
      have hstep : enqueue q j = { q with dropped := q.dropped + 1 } := by
        simp [enqueue, put_nowait, hms, hfull]
      have ih2 := ih { q with dropped := q.dropped + 1 } hms hlen
      rw [List.foldl_cons, hstep]
      refine ⟨?_, ?_⟩
      · rw [ih2.1]
        simp [hr]
      · rw [ih2.2]
        simp only [List.length_cons, hr]
        omega
    · have hroom : q.jobs.length < q.maxsize := Nat.lt_of_not_le hfull
      have hstep : enqueue q j = { q with jobs := q.jobs ++ [j] } := by
        simp [enqueue, put_nowait, hfull]
      have hlen2 : ({ q with jobs := q.jobs ++ [j] } : _ReceiptQueue γ).jobs.length ≤
          ({ q with jobs := q.jobs ++ [j] } : _ReceiptQueue γ).maxsize := by
        simp only [List.length_append, List.length_cons, List.length_nil]
        omega
      have ih2 := ih { q with jobs := q.jobs ++ [j] } hms hlen2
      rw [List.foldl_cons, hstep]
      obtain ⟨k, hk⟩ : ∃ k, q.maxsize - q.jobs.length = k + 1 :=
        ⟨q.maxsize - q.jobs.length - 1, by omega⟩
      have hk2 : q.maxsize - (q.jobs.length + (0 + 1)) = k := by omega
      refine ⟨?_, ?_⟩
      · rw [ih2.1]
        simp only [List.length_append, List.length_cons, List.length_nil, hk2, hk,
          List.take_succ_cons, List.append_assoc, List.singleton_append]
      · rw [ih2.2]
        simp only [List.length_append, List.length_cons, List.length_nil, hk2, hk]
        omega

/-- C9: enqueue never raises (it is a total state transformer — each call
either appends the job or counts exactly one drop, as the accounting
conjunct states); for any burst of jobs enqueued into a fresh bounded queue
of capacity c while the consumer makes no progress, the first c jobs are
queued in order, the dropped counter equals the exact excess, and no job is
buffered more often than it was enqueued, so none is delivered twice. -/
theorem enqueue_drop_spec {γ : Type} [DecidableEq γ] (c : Nat) (hc : c ≠ 0)
    (js : List γ) :
    (js.foldl enqueue (_ReceiptQueue.mkEmpty γ c)).jobs = js.take c
    ∧ (js.foldl enqueue (_ReceiptQueue.mkEmpty γ c)).dropped = js.length - c
    ∧ (∀ j : γ, (js.foldl enqueue (_ReceiptQueue.mkEmpty γ c)).jobs.count j ≤ js.count j)
    ∧ (∀ (q : _ReceiptQueue γ) (j : γ),
        (enqueue q j).jobs.length + (enqueue q j).dropped =
          q.jobs.length + q.dropped + 1) := by
  have h := enqueue_fold_general js (_ReceiptQueue.mkEmpty γ c) hc
    (by simp [_ReceiptQueue.mkEmpty])
  have h1 : (js.foldl enqueue (_ReceiptQueue.mkEmpty γ c)).jobs = js.take c := by
    rw [h.1]
    simp [_ReceiptQueue.mkEmpty]
  have h2 : (js.foldl enqueue (_ReceiptQueue.mkEmpty γ c)).dropped = js.length - c := by
    rw [h.2]
    simp [_ReceiptQueue.mkEmpty]
  refine ⟨h1, h2, ?_, ?_⟩
  · intro j
    rw [h1]
    exact (List.take_sublist c js).count_le j
  · intro q j
    by_cases hfull : q.maxsize ≠ 0 ∧ q.jobs.length ≥ q.maxsize
    · have hp : put_nowait q j = Except.error () := by
        simp only [put_nowait, if_pos hfull]
      simp [enqueue, hp]
      omega
    · have hp : put_nowait q j = Except.ok { q with jobs := q.jobs ++ [j] } := by
        simp only [put_nowait, if_neg hfull]
      simp [enqueue, hp]
      omega

/-- Witness for C9: capacity-2 queue, three-job burst — two jobs buffered in
order, exactly one drop. -/
theorem enqueue_drop_spec_witness :
    ((["a", "b", "c"].foldl enqueue (_ReceiptQueue.mkEmpty String 2)).jobs = ["a", "b"])
    ∧ ((["a", "b", "c"].foldl enqueue (_ReceiptQueue.mkEmpty String 2)).dropped = 1) :=
  ⟨((enqueue_drop_spec 2 (by decide) ["a", "b", "c"]).1).trans (by decide),
   ((enqueue_drop_spec 2 (by decide) ["a", "b", "c"]).2.1).trans (by decide)⟩
